import Mathlib

/-!
A shallow embedding of the mp3-duration scanner (src/lib.rs).

The byte stream is modelled as a list of natural numbers (each byte a value
below 256) together with an explicit cursor position: `readExact` succeeds
exactly when the requested number of bytes lies inside the stream, and a
forward seek just moves the cursor.  Machine integers are embedded as `Nat`
with an explicit `% 2 ^ 32` at the two places where the u32 arithmetic of
the source can wrap (the `as u32` cast of the frame duration and the
subtraction of 4 in the frame length).  `Duration` is embedded as its total
number of nanoseconds.  The scan loop is embedded with explicit fuel; the
top-level entry point supplies enough fuel for any stream, which is proved
below (`runScan_isSome`).
-/

/-- The error type of the scanner (`MP3DurationError` in the source, plus a
constructor for the propagated io error of the 6-byte ID3v2 read). -/
inductive Mp3Error where
  | forbiddenVersion
  | forbiddenLayer
  | invalidBitrate (bitrate : Nat)
  | invalidSamplingRate (sampling_rate : Nat)
  | unexpectedFrame (header : Nat)
  | ioUnexpectedEof
  deriving DecidableEq, Repr

/-- MPEG version (`enum Version` in the source). -/
inductive Version where
  | mpeg1
  | mpeg2
  | mpeg25
  deriving DecidableEq, Repr, Fintype

/-- MPEG layer (`enum Layer` in the source). -/
inductive Layer where
  | notDefined
  | layer1
  | layer2
  | layer3
  deriving DecidableEq, Repr, Fintype

/-- The discriminant of `Version`, as produced by `version as usize`. -/
def Version.idx : Version → Nat
  | .mpeg1 => 0
  | .mpeg2 => 1
  | .mpeg25 => 2

/-- The discriminant of `Layer`, as produced by `layer as usize`. -/
def Layer.idx : Layer → Nat
  | .notDefined => 0
  | .layer1 => 1
  | .layer2 => 2
  | .layer3 => 3

/-- The static `BIT_RATES` table, indexed `[version][layer][encoded_bitrate]`. -/
def BIT_RATES : List (List (List Nat)) := [
  [List.replicate 16 0,
   [0, 32, 64, 96, 128, 160, 192, 224, 256, 288, 320, 352, 384, 416, 448, 0],
   [0, 32, 48, 56, 64, 80, 96, 112, 128, 160, 192, 224, 256, 320, 384, 0],
   [0, 32, 40, 48, 56, 64, 80, 96, 112, 128, 160, 192, 224, 256, 320, 0]],
  [List.replicate 16 0,
   [0, 32, 48, 56, 64, 80, 96, 112, 128, 144, 160, 176, 192, 224, 256, 0],
   [0, 8, 16, 24, 32, 40, 48, 56, 64, 80, 96, 112, 128, 144, 160, 0],
   [0, 8, 16, 24, 32, 40, 48, 56, 64, 80, 96, 112, 128, 144, 160, 0]],
  [List.replicate 16 0,
   [0, 32, 48, 56, 64, 80, 96, 112, 128, 144, 160, 176, 192, 224, 256, 0],
   [0, 8, 16, 24, 32, 40, 48, 56, 64, 80, 96, 112, 128, 144, 160, 0],
   [0, 8, 16, 24, 32, 40, 48, 56, 64, 80, 96, 112, 128, 144, 160, 0]]]

/-- The static `SAMPLING_RATES` table, indexed `[version][encoded_sampling_rate]`. -/
def SAMPLING_RATES : List (List Nat) := [
  [44100, 48000, 32000, 0],
  [22050, 24000, 16000, 0],
  [11025, 12000, 8000, 0]]

/-- The static `SAMPLES_PER_FRAME` table, indexed `[version][layer]`. -/
def SAMPLES_PER_FRAME : List (List Nat) := [
  [0, 384, 1152, 1152],
  [0, 384, 1152, 576],
  [0, 384, 1152, 576]]

/-- Indexing into `BIT_RATES` (in-bounds at every reachable index). -/
def bitRateAt (v l c : Nat) : Nat := ((BIT_RATES.getD v []).getD l []).getD c 0

/-- Indexing into `SAMPLING_RATES` (in-bounds at every reachable index). -/
def samplingRateAt (v c : Nat) : Nat := (SAMPLING_RATES.getD v []).getD c 0

/-- Indexing into `SAMPLES_PER_FRAME` (in-bounds at every reachable index). -/
def samplesPerFrameAt (v l : Nat) : Nat := (SAMPLES_PER_FRAME.getD v []).getD l 0

/-- `fn get_bitrate` of the source. -/
def get_bitrate (version : Version) (layer : Layer) (encoded_bitrate : Nat) :
    Except Mp3Error Nat :=
  if encoded_bitrate ≤ 0 ∨ 15 ≤ encoded_bitrate then
    .error (.invalidBitrate encoded_bitrate)
  else if layer = Layer.notDefined then
    .error .forbiddenLayer
  else
    .ok (1000 * bitRateAt version.idx layer.idx encoded_bitrate)

/-- `fn get_sampling_rate` of the source. -/
def get_sampling_rate (version : Version) (encoded_sampling_rate : Nat) :
    Except Mp3Error Nat :=
  if 3 ≤ encoded_sampling_rate then
    .error (.invalidSamplingRate encoded_sampling_rate)
  else
    .ok (samplingRateAt version.idx encoded_sampling_rate)

/-- `fn get_samples_per_frame` of the source. -/
def get_samples_per_frame (version : Version) (layer : Layer) : Except Mp3Error Nat :=
  if layer = Layer.notDefined then
    .error .forbiddenLayer
  else
    .ok (samplesPerFrameAt version.idx layer.idx)

/-- The big-endian 32-bit header word built from the 4 bytes of the buffer
(lines 151-152 of the source). -/
def headerOf (b0 b1 b2 b3 : Nat) : Nat :=
  b0 <<< 24 ||| b1 <<< 16 ||| b2 <<< 8 ||| b3

/-- The version decoding match on bits 20-19 (the `_` arm stands for code 3,
`Mpeg1`; the code cannot exceed 3 because it is masked with `0b11`). -/
def versionOf (bits : Nat) : Except Mp3Error Version :=
  match bits with
  | 0 => .ok .mpeg25
  | 1 => .error .forbiddenVersion
  | 2 => .ok .mpeg2
  | _ => .ok .mpeg1

/-- The layer decoding match on bits 18-17 (the `_` arm stands for code 3,
`Layer1`; the code cannot exceed 3 because it is masked with `0b11`). -/
def layerOf (bits : Nat) : Layer :=
  match bits with
  | 0 => .notDefined
  | 1 => .layer3
  | 2 => .layer2
  | _ => .layer1

/-- `read_exact` on a stream at a cursor: succeeds exactly when the requested
number of bytes is available, failing with `UnexpectedEof` otherwise. -/
def readExact (bs : List Nat) (pos n : Nat) : Option (List Nat) :=
  if pos + n ≤ bs.length then some ((bs.drop pos).take n) else none

/-- The outcome of one iteration of the scan loop: end of stream reached at
the 4-byte read (`done`), continue at a new cursor with a new running
duration (`next`), or terminate with an error (`fail`). -/
inductive ScanStep where
  | done
  | next (pos dur : Nat)
  | fail (e : Mp3Error) (pos : Nat)
  deriving DecidableEq, Repr

/-- The number of bytes the ID3v2 handler seeks forward after having read
its 6 header bytes (lines 141-146 of the source): the size word assembled
from the 4 size bytes, plus 10 when flag bit `0x10` (footer present) is
set. -/
def id3v2SkipAmount (id3v2 : List Nat) : Nat :=
  let flags := id3v2.getD 1 0
  let footer_size := if flags &&& 16 ≠ 0 then 10 else 0
  let tag_size := id3v2.getD 5 0 ||| id3v2.getD 4 0 <<< 7 |||
                  id3v2.getD 3 0 <<< 14 ||| id3v2.getD 2 0 <<< 21
  tag_size + footer_size

/-- The MPEG-frame branch of the loop body (lines 156-182 of the source):
decode and validate the header fields, then return the frame byte length
(how far the cursor advances past the 4 header bytes, including the
wrapping u32 subtraction of 4) and the nanoseconds added to the running
duration (including the `as u32` cast). -/
def frameResult (header : Nat) : Except Mp3Error (Nat × Nat) :=
  match versionOf ((header >>> 19) &&& 3) with
  | .error e => .error e
  | .ok version =>
    let layer := layerOf ((header >>> 17) &&& 3)
    let encoded_bitrate := (header >>> 12) &&& 15
    let encoded_sampling_rate := (header >>> 10) &&& 3
    let padding := if (header >>> 9) &&& 1 ≠ 0 then 1 else 0
    match get_bitrate version layer encoded_bitrate with
    | .error e => .error e
    | .ok bitrate =>
      match get_sampling_rate version encoded_sampling_rate with
      | .error e => .error e
      | .ok sampling_rate =>
        match get_samples_per_frame version layer with
        | .error e => .error e
        | .ok num_samples =>
          let frame_duration := num_samples * 1000000000 / sampling_rate
          let frame_length :=
            (num_samples / 8 * bitrate / sampling_rate + padding + (2 ^ 32 - 4)) % 2 ^ 32
          .ok (frame_length, frame_duration % 2 ^ 32)

/-- One iteration of the scan loop of `from_file` (lines 119-186 of the
source): read 4 bytes (end of stream ends the loop successfully), then
dispatch on ID3v1 tag, ID3v2 tag, MPEG frame, or unexpected data. -/
def scanStep (bs : List Nat) (pos dur : Nat) : ScanStep :=
  match readExact bs pos 4 with
  | none => .done
  | some buffer =>
    let b0 := buffer.getD 0 0
    let b1 := buffer.getD 1 0
    let b2 := buffer.getD 2 0
    let b3 := buffer.getD 3 0
    if b0 = 84 ∧ b1 = 65 ∧ b2 = 71 then
      .next (pos + 4 + 124) dur
    else if b0 = 73 ∧ b1 = 68 ∧ b2 = 51 then
      match readExact bs (pos + 4) 6 with
      | none => .fail .ioUnexpectedEof (pos + 4)
      | some id3v2 => .next (pos + 10 + id3v2SkipAmount id3v2) dur
    else
      let header := headerOf b0 b1 b2 b3
      if header >>> 21 = 0x7FF then
        match frameResult header with
        | .error e => .fail e (pos + 4)
        | .ok fr => .next (pos + 4 + fr.1) (dur + fr.2)
      else
        .fail (.unexpectedFrame header) (pos + 4)

/-- The scan loop, with explicit fuel; returns the `Result` of the call
together with the final cursor position, or `none` when the fuel runs out
(which `runScan_isSome` shows never happens from the entry point). -/
def scanFrom (bs : List Nat) : Nat → Nat → Nat → Option (Except Mp3Error Nat × Nat)
  | 0, _, _ => none
  | fuel + 1, pos, dur =>
    match scanStep bs pos dur with
    | .done => some (.ok dur, pos)
    | .next pos' dur' => scanFrom bs fuel pos' dur'
    | .fail e p => some (.error e, p)

/-- The whole scan from the start of the stream, with adequate fuel. -/
def runScan (bs : List Nat) : Option (Except Mp3Error Nat × Nat) :=
  scanFrom bs (bs.length + 1) 0 0

/-- `pub fn from_file`: the duration of the stream in nanoseconds, or the
first error. -/
def from_file (bs : List Nat) : Option (Except Mp3Error Nat) :=
  (runScan bs).map Prod.fst

/-- Modelled from the spec (section 4.1), for comparison with the code's
ID3v2 size decoding: each of the 4 size bytes is treated as a 7-bit field
(top bit ignored) and the fields are packed big-endian into a 28-bit
integer. -/
def synchsafeSizeSpec (s2 s3 s4 s5 : Nat) : Nat :=
  (s2 % 128) * 2 ^ 21 + (s3 % 128) * 2 ^ 14 + (s4 % 128) * 2 ^ 7 + s5 % 128

deriving instance DecidableEq for Except

example : from_file [] = some (.ok 0) := by decide
example : from_file [255, 251, 144, 0] = some (.ok 26122448) := by decide
example : from_file [73, 68, 51, 4] = some (.error .ioUnexpectedEof) := by decide
example : from_file [0, 1, 2, 3] = some (.error (.unexpectedFrame 66051)) := by decide
example : from_file [255, 235, 0, 0] = some (.error .forbiddenVersion) := by decide

/-! ### Arithmetic facts about the bitfield operations -/

theorem lor_eq_add_of_lt {b : Nat} (a n : Nat) (hb : b < 2 ^ n) :
    a <<< n ||| b = a * 2 ^ n + b := by
  rw [Nat.shiftLeft_eq, Nat.mul_comm a (2 ^ n)]
  exact (Nat.mul_add_lt_is_or hb a).symm

theorem land_one (x : Nat) : x &&& 1 = x % 2 :=
  Nat.and_pow_two_sub_one_eq_mod x 1

theorem land_three (x : Nat) : x &&& 3 = x % 4 :=
  Nat.and_pow_two_sub_one_eq_mod x 2

theorem land_fifteen (x : Nat) : x &&& 15 = x % 16 :=
  Nat.and_pow_two_sub_one_eq_mod x 4

theorem land_three_lt (x : Nat) : x &&& 3 < 4 := by
  rw [land_three]
  omega

theorem land_fifteen_lt (x : Nat) : x &&& 15 < 16 := by
  rw [land_fifteen]
  omega

theorem headerOf_eq (b0 : Nat) {b1 b2 b3 : Nat} (h1 : b1 < 256) (h2 : b2 < 256)
    (h3 : b3 < 256) :
    headerOf b0 b1 b2 b3 = b0 * 16777216 + b1 * 65536 + b2 * 256 + b3 := by
  unfold headerOf
  have e1 : b0 <<< 24 ||| b1 <<< 16 = (b0 * 256 + b1) <<< 16 := by
    have hlt : b1 <<< 16 < 2 ^ 24 := by
      rw [Nat.shiftLeft_eq]
      norm_num
      omega
    rw [lor_eq_add_of_lt b0 24 hlt, Nat.shiftLeft_eq, Nat.shiftLeft_eq]
    ring
  have e2 : (b0 * 256 + b1) <<< 16 ||| b2 <<< 8 = (b0 * 65536 + b1 * 256 + b2) <<< 8 := by
    have hlt : b2 <<< 8 < 2 ^ 16 := by
      rw [Nat.shiftLeft_eq]
      norm_num
      omega
    rw [lor_eq_add_of_lt (b0 * 256 + b1) 16 hlt, Nat.shiftLeft_eq, Nat.shiftLeft_eq]
    ring
  have h3p : b3 < 2 ^ 8 := by
    norm_num
    exact h3
  rw [e1, e2, lor_eq_add_of_lt _ 8 h3p]
  ring

/-- A header with a valid sync pattern has 255 as its first byte, so the
ID3v1 and ID3v2 signature tests cannot match it. -/
theorem sync_first_byte {b0 b1 b2 b3 : Nat} (h1 : b1 < 256) (h2 : b2 < 256)
    (h3 : b3 < 256) (hsync : headerOf b0 b1 b2 b3 >>> 21 = 0x7FF) : b0 = 255 := by
  have hh := headerOf_eq b0 h1 h2 h3
  rw [Nat.shiftRight_eq_div_pow] at hsync
  norm_num at hsync
  omega

/-! ### Decoding lemmas -/

theorem versionOf_ok {bits : Nat} (h4 : bits < 4) (hne : bits ≠ 1) :
    ∃ v, versionOf bits = .ok v := by
  interval_cases bits
  · exact ⟨.mpeg25, rfl⟩
  · exact absurd rfl hne
  · exact ⟨.mpeg2, rfl⟩
  · exact ⟨.mpeg1, rfl⟩

theorem layerOf_ne {bits : Nat} (h : bits ≠ 0) : layerOf bits ≠ .notDefined := by
  have h3 : bits = 1 ∨ bits = 2 ∨ 3 ≤ bits := by omega
  rcases h3 with rfl | rfl | h3
  · decide
  · decide
  · obtain ⟨n, rfl⟩ : ∃ n, bits = n + 3 := ⟨bits - 3, by omega⟩
    intro hc
    exact Layer.noConfusion hc

theorem get_bitrate_ok {eb : Nat} (v : Version) {l : Layer} (hl : l ≠ Layer.notDefined)
    (h0 : eb ≠ 0) (h15 : eb < 15) :
    get_bitrate v l eb = .ok (1000 * bitRateAt v.idx l.idx eb) := by
  unfold get_bitrate
  rw [if_neg (by omega), if_neg hl]

theorem get_sampling_rate_ok {sr : Nat} (v : Version) (h : sr < 3) :
    get_sampling_rate v sr = .ok (samplingRateAt v.idx sr) := by
  unfold get_sampling_rate
  rw [if_neg (by omega)]

theorem get_samples_per_frame_ok (v : Version) {l : Layer} (hl : l ≠ Layer.notDefined) :
    get_samples_per_frame v l = .ok (samplesPerFrameAt v.idx l.idx) := by
  unfold get_samples_per_frame
  rw [if_neg hl]

/-- A fully validated header decodes to the table-driven frame length and
frame duration. -/
theorem frameResult_ok {h : Nat}
    (hver : (h >>> 19) &&& 3 ≠ 1)
    (hlay : (h >>> 17) &&& 3 ≠ 0)
    (hbr0 : (h >>> 12) &&& 15 ≠ 0)
    (hbr15 : (h >>> 12) &&& 15 ≠ 15)
    (hsr : (h >>> 10) &&& 3 ≠ 3) :
    ∃ v : Version,
      versionOf ((h >>> 19) &&& 3) = .ok v ∧
      frameResult h = .ok
        ((samplesPerFrameAt v.idx (layerOf ((h >>> 17) &&& 3)).idx / 8 *
            (1000 * bitRateAt v.idx (layerOf ((h >>> 17) &&& 3)).idx ((h >>> 12) &&& 15)) /
            samplingRateAt v.idx ((h >>> 10) &&& 3) +
            (if (h >>> 9) &&& 1 ≠ 0 then 1 else 0) + (2 ^ 32 - 4)) % 2 ^ 32,
          samplesPerFrameAt v.idx (layerOf ((h >>> 17) &&& 3)).idx * 1000000000 /
            samplingRateAt v.idx ((h >>> 10) &&& 3) % 2 ^ 32) := by
  obtain ⟨v, hv⟩ := versionOf_ok (land_three_lt _) hver
  have hbr : (h >>> 12) &&& 15 < 15 := by
    have := land_fifteen_lt (h >>> 12)
    omega
  have hsr3 : (h >>> 10) &&& 3 < 3 := by
    have := land_three_lt (h >>> 10)
    omega
  refine ⟨v, hv, ?_⟩
  simp only [frameResult, hv, get_bitrate_ok v (layerOf_ne hlay) hbr0 hbr,
    get_sampling_rate_ok v hsr3, get_samples_per_frame_ok v (layerOf_ne hlay)]

/-! ### Basic facts about the scan loop -/

theorem scanFrom_zero (bs : List Nat) (pos dur : Nat) : scanFrom bs 0 pos dur = none := rfl

theorem scanFrom_succ (bs : List Nat) (fuel pos dur : Nat) :
    scanFrom bs (fuel + 1) pos dur =
      match scanStep bs pos dur with
      | .done => some (.ok dur, pos)
      | .next pos' dur' => scanFrom bs fuel pos' dur'
      | .fail e p => some (.error e, p) := rfl

theorem readExact_some_le {bs : List Nat} {pos n : Nat} {w : List Nat}
    (h : readExact bs pos n = some w) : pos + n ≤ bs.length := by
  unfold readExact at h
  by_cases hc : pos + n ≤ bs.length
  · exact hc
  · rw [if_neg hc] at h
    cases h

theorem scanStep_done {bs : List Nat} {pos dur : Nat} (h : bs.length < pos + 4) :
    scanStep bs pos dur = .done := by
  unfold scanStep readExact
  rw [if_neg (by omega)]

/-- The 4-byte window exists whenever 4 bytes are available. -/
theorem readExact_four {bs : List Nat} {pos : Nat} (h : pos + 4 ≤ bs.length) :
    ∃ b0 b1 b2 b3, readExact bs pos 4 = some [b0, b1, b2, b3] := by
  have hl : ((bs.drop pos).take 4).length = 4 := by
    rw [List.length_take, List.length_drop]
    omega
  have hre : readExact bs pos 4 = some ((bs.drop pos).take 4) := by
    unfold readExact
    rw [if_pos h]
  rcases hw : (bs.drop pos).take 4 with _ | ⟨b0, _ | ⟨b1, _ | ⟨b2, _ | ⟨b3, _ | ⟨b4, t⟩⟩⟩⟩⟩ <;>
    rw [hw] at hl hre <;> simp at hl
  exact ⟨b0, b1, b2, b3, hre⟩

/-- Unfolding of one loop iteration once the 4-byte window is known. -/
theorem scanStep_of_read {bs : List Nat} {pos dur b0 b1 b2 b3 : Nat}
    (hr : readExact bs pos 4 = some [b0, b1, b2, b3]) :
    scanStep bs pos dur =
      if b0 = 84 ∧ b1 = 65 ∧ b2 = 71 then .next (pos + 4 + 124) dur
      else if b0 = 73 ∧ b1 = 68 ∧ b2 = 51 then
        match readExact bs (pos + 4) 6 with
        | none => .fail .ioUnexpectedEof (pos + 4)
        | some id3v2 => .next (pos + 10 + id3v2SkipAmount id3v2) dur
      else if headerOf b0 b1 b2 b3 >>> 21 = 0x7FF then
        match frameResult (headerOf b0 b1 b2 b3) with
        | .error e => .fail e (pos + 4)
        | .ok fr => .next (pos + 4 + fr.1) (dur + fr.2)
      else .fail (.unexpectedFrame (headerOf b0 b1 b2 b3)) (pos + 4) := by
  unfold scanStep
  simp only [hr, List.getD_cons_zero, List.getD_cons_succ]

theorem scanStep_next_bound {bs : List Nat} {pos dur p d : Nat}
    (h : scanStep bs pos dur = .next p d) : pos + 4 ≤ p ∧ pos + 4 ≤ bs.length := by
  by_cases hlen : pos + 4 ≤ bs.length
  · obtain ⟨b0, b1, b2, b3, hr⟩ := readExact_four hlen
    rw [scanStep_of_read hr] at h
    refine ⟨?_, hlen⟩
    split_ifs at h
    all_goals try split at h
    all_goals try (injection h with h1 h2; omega)
    all_goals injection h
  · rw [scanStep_done (by omega)] at h
    cases h

theorem scanFrom_mono {bs : List Nat} :
    ∀ {fuel fuel' pos dur r}, fuel ≤ fuel' →
      scanFrom bs fuel pos dur = some r → scanFrom bs fuel' pos dur = some r := by
  intro fuel
  induction fuel with
  | zero =>
    intro fuel' pos dur r _ h
    rw [scanFrom_zero] at h
    cases h
  | succ n ih =>
    intro fuel' pos dur r hle h
    obtain ⟨m, rfl⟩ : ∃ m, fuel' = m + 1 := ⟨fuel' - 1, by omega⟩
    cases hs : scanStep bs pos dur with
    | done =>
      simp only [scanFrom_succ, hs] at h ⊢
      exact h
    | next q e =>
      simp only [scanFrom_succ, hs] at h ⊢
      exact ih (by omega) h
    | fail er q =>
      simp only [scanFrom_succ, hs] at h ⊢
      exact h

theorem scanFrom_isSome (bs : List Nat) :
    ∀ fuel pos dur, bs.length - pos < 4 * fuel → (scanFrom bs fuel pos dur).isSome := by
  intro fuel
  induction fuel with
  | zero =>
    intro pos dur h
    exact absurd h (by omega)
  | succ n ih =>
    intro pos dur h
    cases hs : scanStep bs pos dur with
    | done => simp [scanFrom_succ, hs]
    | fail e q => simp [scanFrom_succ, hs]
    | next q e =>
      obtain ⟨h1, h2⟩ := scanStep_next_bound hs
      have hq := ih q e (by omega)
      simpa [scanFrom_succ, hs] using hq

theorem runScan_isSome (bs : List Nat) : (runScan bs).isSome :=
  scanFrom_isSome bs (bs.length + 1) 0 0 (by omega)

/-! ### Numeric bounds from the static tables -/

/-- The wrapping u32 subtraction of 4 agrees with plain subtraction in range. -/
theorem wrap_sub {x : Nat} (h4 : 4 ≤ x) (hlt : x < 2 ^ 32) :
    (x + (2 ^ 32 - 4)) % 2 ^ 32 = x - 4 := by
  have e : (2 : Nat) ^ 32 = 4294967296 := by norm_num
  rw [e] at hlt ⊢
  omega

/-- Per-frame duration from the tables is at most 144 ms. -/
theorem frameDur_bound :
    ∀ (v : Version) (l : Layer), ∀ sc < 3,
      samplesPerFrameAt v.idx l.idx * 1000000000 / samplingRateAt v.idx sc ≤ 144000000 := by
  decide

/-- Pre-subtraction frame length from the tables is in `[4, 2^32)` for every
validated field combination. -/
theorem frameLen_bound :
    ∀ (v : Version) (l : Layer), l ≠ .notDefined → ∀ eb < 15, eb ≠ 0 → ∀ sc < 3, ∀ pd < 2,
      4 ≤ samplesPerFrameAt v.idx l.idx / 8 * (1000 * bitRateAt v.idx l.idx eb) /
            samplingRateAt v.idx sc + pd ∧
      samplesPerFrameAt v.idx l.idx / 8 * (1000 * bitRateAt v.idx l.idx eb) /
            samplingRateAt v.idx sc + pd < 2 ^ 32 := by
  decide

/-! ### Shifting the scan across a prefix of the stream -/

theorem readExact_shift (pre bs : List Nat) (p n : Nat) :
    readExact (pre ++ bs) (pre.length + p) n = readExact bs p n := by
  unfold readExact
  rw [List.length_append, List.drop_append]
  by_cases hc : p + n ≤ bs.length
  · rw [if_pos hc, if_pos (by omega)]
  · rw [if_neg hc, if_neg (by omega)]

theorem scanStep_done_len {bs : List Nat} {pos dur : Nat}
    (h : scanStep bs pos dur = .done) : bs.length < pos + 4 := by
  by_cases hc : pos + 4 ≤ bs.length
  · obtain ⟨b0, b1, b2, b3, hr⟩ := readExact_four hc
    rw [scanStep_of_read hr] at h
    split_ifs at h
    all_goals try split at h
    all_goals cases h
  · omega

/-- How one loop iteration relocates when the whole stream is shifted right
by a prefix: positions move by the prefix length, everything else is
unchanged. -/
def shiftStep (k : Nat) : ScanStep → ScanStep
  | .done => .done
  | .next q e => .next (k + q) e
  | .fail er q => .fail er (k + q)

theorem scanStep_shift (pre bs : List Nat) (p dur : Nat) :
    scanStep (pre ++ bs) (pre.length + p) dur = shiftStep pre.length (scanStep bs p dur) := by
  by_cases hlen : p + 4 ≤ bs.length
  · obtain ⟨b0, b1, b2, b3, hr⟩ := readExact_four hlen
    have hr' : readExact (pre ++ bs) (pre.length + p) 4 = some [b0, b1, b2, b3] := by
      rw [readExact_shift]
      exact hr
    rw [scanStep_of_read hr', scanStep_of_read hr]
    by_cases hT : b0 = 84 ∧ b1 = 65 ∧ b2 = 71
    · rw [if_pos hT, if_pos hT]
      simp only [shiftStep, ScanStep.next.injEq, and_true, true_and]
      all_goals omega
    · rw [if_neg hT, if_neg hT]
      by_cases hI : b0 = 73 ∧ b1 = 68 ∧ b2 = 51
      · rw [if_pos hI, if_pos hI]
        rw [(by omega : pre.length + p + 4 = pre.length + (p + 4)), readExact_shift]
        cases hre6 : readExact bs (p + 4) 6 with
        | none =>
          simp only [shiftStep, ScanStep.fail.injEq, and_true, true_and]
        | some w =>
          simp only [shiftStep, ScanStep.next.injEq, and_true, true_and]
          all_goals omega
      · rw [if_neg hI, if_neg hI]
        by_cases hS : headerOf b0 b1 b2 b3 >>> 21 = 0x7FF
        · rw [if_pos hS, if_pos hS]
          cases hfr : frameResult (headerOf b0 b1 b2 b3) with
          | error er =>
            simp only [shiftStep, ScanStep.fail.injEq, and_true, true_and]
            all_goals omega
          | ok fr =>
            simp only [shiftStep, ScanStep.next.injEq, and_true, true_and]
            all_goals omega
        · rw [if_neg hS, if_neg hS]
          simp only [shiftStep, ScanStep.fail.injEq, and_true, true_and]
          all_goals omega
  · have h1 : scanStep bs p dur = .done := scanStep_done (by omega)
    have h2 : scanStep (pre ++ bs) (pre.length + p) dur = .done :=
      scanStep_done (by rw [List.length_append]; omega)
    rw [h1, h2]
    rfl

theorem scanFrom_shift (pre bs : List Nat) :
    ∀ fuel p dur, scanFrom (pre ++ bs) fuel (pre.length + p) dur =
      (scanFrom bs fuel p dur).map (fun r => (r.1, pre.length + r.2)) := by
  intro fuel
  induction fuel with
  | zero =>
    intro p dur
    rfl
  | succ n ih =>
    intro p dur
    rw [scanFrom_succ, scanFrom_succ, scanStep_shift]
    cases hs : scanStep bs p dur with
    | done => simp [shiftStep]
    | next q e =>
      simp only [shiftStep]
      exact ih q e
    | fail er q => simp [shiftStep]

/-! ### Extending the stream past the point where the scan ends -/

theorem readExact_append (t : List Nat) {bs : List Nat} {p n : Nat} {w : List Nat}
    (h : readExact bs p n = some w) : readExact (bs ++ t) p n = some w := by
  have hle := readExact_some_le h
  unfold readExact at h ⊢
  rw [if_pos hle] at h
  rw [if_pos (by rw [List.length_append]; omega)]
  rw [List.drop_append_of_le_length (by omega),
    List.take_append_of_le_length (by rw [List.length_drop]; omega)]
  exact h

theorem scanStep_append_next (t : List Nat) {bs : List Nat} {p dur q e : Nat}
    (h : scanStep bs p dur = .next q e) : scanStep (bs ++ t) p dur = .next q e := by
  obtain ⟨hq, hlen⟩ := scanStep_next_bound h
  obtain ⟨b0, b1, b2, b3, hr⟩ := readExact_four hlen
  have hr' := readExact_append t hr
  rw [scanStep_of_read hr] at h
  rw [scanStep_of_read hr']
  by_cases hT : b0 = 84 ∧ b1 = 65 ∧ b2 = 71
  · rw [if_pos hT] at h
    rw [if_pos hT]
    exact h
  · rw [if_neg hT] at h
    rw [if_neg hT]
    by_cases hI : b0 = 73 ∧ b1 = 68 ∧ b2 = 51
    · rw [if_pos hI] at h
      rw [if_pos hI]
      cases hre6 : readExact bs (p + 4) 6 with
      | none =>
        simp only [hre6] at h
        exact absurd h (by simp)
      | some w =>
        simp only [readExact_append t hre6]
        simp only [hre6] at h
        exact h
    · rw [if_neg hI] at h
      rw [if_neg hI]
      exact h

theorem scanFrom_append_tag (x : Nat) {bs rest : List Nat} (hrest : rest.length = 124) :
    ∀ fuel p dur d, scanFrom bs fuel p dur = some (.ok d, bs.length) →
      scanFrom (bs ++ 84 :: 65 :: 71 :: x :: rest) (fuel + 2) p dur =
        some (.ok d, bs.length + 128) := by
  intro fuel
  induction fuel with
  | zero =>
    intro p dur d h
    rw [scanFrom_zero] at h
    cases h
  | succ n ih =>
    intro p dur d h
    cases hs : scanStep bs p dur with
    | done =>
      simp only [scanFrom_succ, hs] at h
      rw [Option.some.injEq, Prod.mk.injEq] at h
      rw [Except.ok.injEq] at h
      obtain ⟨hd, hp⟩ := h
      subst hd
      subst hp
      have hstep1 : scanStep (bs ++ 84 :: 65 :: 71 :: x :: rest) bs.length dur =
          .next (bs.length + 4 + 124) dur := by
        have hr : readExact (bs ++ 84 :: 65 :: 71 :: x :: rest) bs.length 4 =
            some [84, 65, 71, x] := by
          unfold readExact
          rw [if_pos (by simp only [List.length_append, List.length_cons, hrest]; omega)]
          rw [List.drop_left' rfl]
          rfl
        rw [scanStep_of_read hr, if_pos ⟨rfl, rfl, rfl⟩]
      have hstep2 : scanStep (bs ++ 84 :: 65 :: 71 :: x :: rest) (bs.length + 4 + 124) dur =
          .done :=
        scanStep_done (by simp only [List.length_append, List.length_cons, hrest]; omega)
      simp only [show n + 1 + 2 = n + 2 + 1 from rfl, scanFrom_succ, hstep1]
      simp only [show n + 2 = n + 1 + 1 from rfl, scanFrom_succ, hstep2]
    | next q e =>
      simp only [scanFrom_succ, hs] at h
      have hstep := scanStep_append_next (84 :: 65 :: 71 :: x :: rest) hs
      simp only [show n + 1 + 2 = n + 2 + 1 from rfl, scanFrom_succ, hstep]
      exact ih q e d h
    | fail er q =>
      simp only [scanFrom_succ, hs] at h
      exact absurd h (by simp)

/-! ### One-iteration characterizations used by the claims -/

/-- A window with a valid sync pattern is handled by the MPEG-frame branch. -/
theorem scanStep_frame {bs : List Nat} {pos dur : Nat} {b0 b1 b2 b3 : Nat}
    (hr : readExact bs pos 4 = some [b0, b1, b2, b3])
    (h1 : b1 < 256) (h2 : b2 < 256) (h3 : b3 < 256)
    (hsync : headerOf b0 b1 b2 b3 >>> 21 = 0x7FF) :
    scanStep bs pos dur =
      match frameResult (headerOf b0 b1 b2 b3) with
      | .error e => .fail e (pos + 4)
      | .ok fr => .next (pos + 4 + fr.1) (dur + fr.2) := by
  have hb0 := sync_first_byte h1 h2 h3 hsync
  rw [scanStep_of_read hr, if_neg (by omega), if_neg (by omega), if_pos hsync]

/-- A non-reserved version with bitrate code 0 or 15 fails in `get_bitrate`. -/
theorem frameResult_invalidBitrate {h : Nat}
    (hver : (h >>> 19) &&& 3 ≠ 1)
    (hbr : (h >>> 12) &&& 15 = 0 ∨ (h >>> 12) &&& 15 = 15) :
    frameResult h = .error (.invalidBitrate ((h >>> 12) &&& 15)) := by
  obtain ⟨v, hv⟩ := versionOf_ok (land_three_lt _) hver
  have hgb : get_bitrate v (layerOf ((h >>> 17) &&& 3)) ((h >>> 12) &&& 15) =
      .error (.invalidBitrate ((h >>> 12) &&& 15)) := by
    unfold get_bitrate
    rw [if_pos (by omega)]
  simp only [frameResult, hv, hgb]

/-- With valid version, layer and bitrate codes, sampling-rate code 3 fails
in `get_sampling_rate`. -/
theorem frameResult_invalidSamplingRate {h : Nat}
    (hver : (h >>> 19) &&& 3 ≠ 1) (hlay : (h >>> 17) &&& 3 ≠ 0)
    (hbr0 : (h >>> 12) &&& 15 ≠ 0) (hbr15 : (h >>> 12) &&& 15 ≠ 15)
    (hsr : (h >>> 10) &&& 3 = 3) :
    frameResult h = .error (.invalidSamplingRate 3) := by
  obtain ⟨v, hv⟩ := versionOf_ok (land_three_lt _) hver
  have hbr : (h >>> 12) &&& 15 < 15 := by
    have := land_fifteen_lt (h >>> 12)
    omega
  have hgs : get_sampling_rate v 3 = .error (.invalidSamplingRate 3) := by
    unfold get_sampling_rate
    rw [if_pos (by omega)]
  simp only [frameResult, hv, get_bitrate_ok v (layerOf_ne hlay) hbr0 hbr, hsr, hgs]

/-- A window matching no signature and no sync pattern stops the scan with
`UnexpectedFrame` at once. -/
theorem scanFrom_unexpected {bs : List Nat} {pos dur fuel : Nat} {b0 b1 b2 b3 : Nat}
    (hr : readExact bs pos 4 = some [b0, b1, b2, b3])
    (hT : ¬(b0 = 84 ∧ b1 = 65 ∧ b2 = 71))
    (hI : ¬(b0 = 73 ∧ b1 = 68 ∧ b2 = 51))
    (hS : headerOf b0 b1 b2 b3 >>> 21 ≠ 0x7FF) :
    scanFrom bs (fuel + 1) pos dur =
      some (.error (.unexpectedFrame (headerOf b0 b1 b2 b3)), pos + 4) := by
  rw [scanFrom_succ, scanStep_of_read hr, if_neg hT, if_neg hI, if_neg hS]

/-! ### The claims -/

/-- C3 (counterexample): on the stream "ID3" followed by a single byte, the
end of stream hit by the 6-byte ID3v2 tag-header read is propagated as an
error; the scan does not terminate successfully with the accumulated
duration as the claim states. -/
theorem C3_counterexample :
    from_file [73, 68, 51, 4] = some (.error .ioUnexpectedEof) ∧
    ∀ d : Nat, from_file [73, 68, 51, 4] ≠ some (.ok d) := by
  constructor
  · decide
  · intro d hc
    rw [show from_file [73, 68, 51, 4] = some (.error .ioUnexpectedEof) from by decide] at hc
    simp at hc

/-- C3 (amended): end of stream during the main 4-byte header read — at a
frame boundary or mid-read — ends the scan successfully with the duration
accumulated so far; but end of stream during the 6-byte ID3v2 tag-header
read is propagated as a read error, not treated as success. -/
theorem C3_eof_amended :
    (∀ (bs : List Nat) (pos dur fuel : Nat), bs.length < pos + 4 →
      scanFrom bs (fuel + 1) pos dur = some (.ok dur, pos)) ∧
    (∀ (x : Nat) (rest : List Nat), rest.length < 6 →
      from_file (73 :: 68 :: 51 :: x :: rest) = some (.error .ioUnexpectedEof)) := by
  constructor
  · intro bs pos dur fuel h
    rw [scanFrom_succ, scanStep_done h]
  · intro x rest h
    unfold from_file runScan
    have hr : readExact (73 :: 68 :: 51 :: x :: rest) 0 4 = some [73, 68, 51, x] := by
      unfold readExact
      rw [if_pos (by simp only [List.length_cons]; omega)]
      rfl
    have hr6 : readExact (73 :: 68 :: 51 :: x :: rest) (0 + 4) 6 = none := by
      unfold readExact
      rw [if_neg (by simp only [List.length_cons]; omega)]
    have hlen : (73 :: 68 :: 51 :: x :: rest).length + 1 = (rest.length + 4) + 1 := by
      simp only [List.length_cons]
    rw [hlen, scanFrom_succ, scanStep_of_read hr]
    rw [if_neg (by decide : ¬((73:Nat) = 84 ∧ (68:Nat) = 65 ∧ (51:Nat) = 71))]
    rw [if_pos (show (73:Nat) = 73 ∧ (68:Nat) = 68 ∧ (51:Nat) = 51 by decide)]
    rw [hr6]
    rfl

/-- C3 (witness for the amended claim): a truncated 2-byte stream ends
successfully with the accumulated duration, and a truncated ID3v2 header
is an error. -/
theorem C3_witness :
    scanFrom [1, 2] (0 + 1) 0 5 = some (.ok 5, 0) ∧
    from_file [73, 68, 51, 4, 9] = some (.error .ioUnexpectedEof) :=
  ⟨C3_eof_amended.1 [1, 2] 0 5 0 (by decide),
   C3_eof_amended.2 4 [9] (by decide)⟩

/-- C6 (counterexample): a header with a valid sync pattern whose bitrate
code is 0 can still fail with ForbiddenVersion, because the version field
is checked first; the scan does not fail with InvalidBitrate as the claim
states. -/
theorem C6_counterexample :
    (headerOf 255 235 0 0 >>> 21 = 0x7FF ∧ (headerOf 255 235 0 0 >>> 12) &&& 15 = 0) ∧
    from_file [255, 235, 0, 0] = some (.error .forbiddenVersion) ∧
    from_file [255, 235, 0, 0] ≠ some (.error (.invalidBitrate 0)) := by
  decide

/-- C6 (amended): for every header with a valid sync pattern whose version
code is not the reserved code 1, a bitrate code of 0 or 15 makes the scan
fail with InvalidBitrate carrying that code; the call returns this error
and no duration. -/
theorem C6_invalid_bitrate_amended {bs : List Nat} {pos dur fuel : Nat} {b0 b1 b2 b3 : Nat}
    (hr : readExact bs pos 4 = some [b0, b1, b2, b3])
    (h1 : b1 < 256) (h2 : b2 < 256) (h3 : b3 < 256)
    (hsync : headerOf b0 b1 b2 b3 >>> 21 = 0x7FF)
    (hver : (headerOf b0 b1 b2 b3 >>> 19) &&& 3 ≠ 1)
    (hbr : (headerOf b0 b1 b2 b3 >>> 12) &&& 15 = 0 ∨
      (headerOf b0 b1 b2 b3 >>> 12) &&& 15 = 15) :
    scanFrom bs (fuel + 1) pos dur =
      some (.error (.invalidBitrate ((headerOf b0 b1 b2 b3 >>> 12) &&& 15)), pos + 4) := by
  simp only [scanFrom_succ, scanStep_frame hr h1 h2 h3 hsync,
    frameResult_invalidBitrate hver hbr]

/-- C6 (witness): the amended claim at a concrete MPEG1 header with bitrate
code 0. -/
theorem C6_witness :
    scanFrom [255, 251, 12, 0] (0 + 1) 0 0 =
      some (.error (.invalidBitrate ((headerOf 255 251 12 0 >>> 12) &&& 15)), 0 + 4) :=
  C6_invalid_bitrate_amended (by decide) (by decide) (by decide) (by decide) (by decide)
    (by decide) (by decide)

/-- C7 (confirmed): for every header with a valid sync pattern, non-reserved
version, layer and bitrate codes, sampling-rate code 3 makes the scan fail
with InvalidSamplingRate carrying that code. -/
theorem C7_invalid_sampling_rate {bs : List Nat} {pos dur fuel : Nat} {b0 b1 b2 b3 : Nat}
    (hr : readExact bs pos 4 = some [b0, b1, b2, b3])
    (h1 : b1 < 256) (h2 : b2 < 256) (h3 : b3 < 256)
    (hsync : headerOf b0 b1 b2 b3 >>> 21 = 0x7FF)
    (hver : (headerOf b0 b1 b2 b3 >>> 19) &&& 3 ≠ 1)
    (hlay : (headerOf b0 b1 b2 b3 >>> 17) &&& 3 ≠ 0)
    (hbr0 : (headerOf b0 b1 b2 b3 >>> 12) &&& 15 ≠ 0)
    (hbr15 : (headerOf b0 b1 b2 b3 >>> 12) &&& 15 ≠ 15)
    (hsr : (headerOf b0 b1 b2 b3 >>> 10) &&& 3 = 3) :
    scanFrom bs (fuel + 1) pos dur =
      some (.error (.invalidSamplingRate 3), pos + 4) := by
  simp only [scanFrom_succ, scanStep_frame hr h1 h2 h3 hsync,
    frameResult_invalidSamplingRate hver hlay hbr0 hbr15 hsr]

/-- C7 (witness): a concrete MPEG1 Layer3 header with sampling-rate code 3. -/
theorem C7_witness :
    scanFrom [255, 251, 156, 0] (0 + 1) 0 0 =
      some (.error (.invalidSamplingRate 3), 0 + 4) :=
  @C7_invalid_sampling_rate [255, 251, 156, 0] 0 0 0 255 251 156 0 (by decide) (by decide)
    (by decide) (by decide) (by decide) (by decide) (by decide) (by decide) (by decide)
    (by decide)

/-- C8 (confirmed): every 4-byte window matching neither the ID3v1 "TAG"
signature nor the ID3v2 "ID3" signature nor the 11-bit sync pattern stops
the scan at once with UnexpectedFrame carrying the big-endian header word;
in particular a stream of at least 4 bytes of such data fails on the first
window. -/
theorem C8_unexpected_frame :
    (∀ (bs : List Nat) (pos dur fuel b0 b1 b2 b3 : Nat),
      readExact bs pos 4 = some [b0, b1, b2, b3] →
      ¬(b0 = 84 ∧ b1 = 65 ∧ b2 = 71) →
      ¬(b0 = 73 ∧ b1 = 68 ∧ b2 = 51) →
      headerOf b0 b1 b2 b3 >>> 21 ≠ 0x7FF →
      scanFrom bs (fuel + 1) pos dur =
        some (.error (.unexpectedFrame (headerOf b0 b1 b2 b3)), pos + 4)) ∧
    (∀ (b0 b1 b2 b3 : Nat) (rest : List Nat),
      ¬(b0 = 84 ∧ b1 = 65 ∧ b2 = 71) →
      ¬(b0 = 73 ∧ b1 = 68 ∧ b2 = 51) →
      headerOf b0 b1 b2 b3 >>> 21 ≠ 0x7FF →
      from_file (b0 :: b1 :: b2 :: b3 :: rest) =
        some (.error (.unexpectedFrame (headerOf b0 b1 b2 b3)))) := by
  constructor
  · intro bs pos dur fuel b0 b1 b2 b3 hr hT hI hS
    exact scanFrom_unexpected hr hT hI hS
  · intro b0 b1 b2 b3 rest hT hI hS
    unfold from_file runScan
    have hr : readExact (b0 :: b1 :: b2 :: b3 :: rest) 0 4 = some [b0, b1, b2, b3] := by
      unfold readExact
      rw [if_pos (by simp only [List.length_cons]; omega)]
      rfl
    have hlen : (b0 :: b1 :: b2 :: b3 :: rest).length + 1 = (rest.length + 4) + 1 := by
      simp only [List.length_cons]
    rw [hlen, scanFrom_unexpected hr hT hI hS]
    rfl

/-- C8 (witness): arbitrary binary data fails immediately. -/
theorem C8_witness :
    from_file [0, 1, 2, 3] = some (.error (.unexpectedFrame 66051)) :=
  C8_unexpected_frame.2 0 1 2 3 [] (by decide) (by decide) (by decide)

/-- C1 (confirmed): for every MPEG frame header that passes validation, the
duration added to the running total for that frame equals
`samples_per_frame * 1000000000 / sampling_rate` nanoseconds with floor
division, where the operands are the static-table entries for the decoded
version, layer and sampling-rate code. -/
theorem C1_frame_duration {bs : List Nat} {pos dur fuel : Nat} {b0 b1 b2 b3 : Nat}
    (hr : readExact bs pos 4 = some [b0, b1, b2, b3])
    (h1 : b1 < 256) (h2 : b2 < 256) (h3 : b3 < 256)
    (hsync : headerOf b0 b1 b2 b3 >>> 21 = 0x7FF)
    (hver : (headerOf b0 b1 b2 b3 >>> 19) &&& 3 ≠ 1)
    (hlay : (headerOf b0 b1 b2 b3 >>> 17) &&& 3 ≠ 0)
    (hbr0 : (headerOf b0 b1 b2 b3 >>> 12) &&& 15 ≠ 0)
    (hbr15 : (headerOf b0 b1 b2 b3 >>> 12) &&& 15 ≠ 15)
    (hsr : (headerOf b0 b1 b2 b3 >>> 10) &&& 3 ≠ 3) :
    ∃ (v : Version) (pos' : Nat),
      versionOf ((headerOf b0 b1 b2 b3 >>> 19) &&& 3) = .ok v ∧
      scanFrom bs (fuel + 1) pos dur =
        scanFrom bs fuel pos'
          (dur + samplesPerFrameAt v.idx (layerOf ((headerOf b0 b1 b2 b3 >>> 17) &&& 3)).idx *
            1000000000 / samplingRateAt v.idx ((headerOf b0 b1 b2 b3 >>> 10) &&& 3)) := by
  obtain ⟨v, hv, hfr⟩ := frameResult_ok hver hlay hbr0 hbr15 hsr
  refine ⟨v,
    pos + 4 +
      (samplesPerFrameAt v.idx (layerOf ((headerOf b0 b1 b2 b3 >>> 17) &&& 3)).idx / 8 *
        (1000 * bitRateAt v.idx (layerOf ((headerOf b0 b1 b2 b3 >>> 17) &&& 3)).idx
          ((headerOf b0 b1 b2 b3 >>> 12) &&& 15)) /
        samplingRateAt v.idx ((headerOf b0 b1 b2 b3 >>> 10) &&& 3) +
        (if (headerOf b0 b1 b2 b3 >>> 9) &&& 1 ≠ 0 then 1 else 0) + (2 ^ 32 - 4)) % 2 ^ 32,
    hv, ?_⟩
  simp only [scanFrom_succ, scanStep_frame hr h1 h2 h3 hsync, hfr]
  have hsr3 : (headerOf b0 b1 b2 b3 >>> 10) &&& 3 < 3 := by
    have := land_three_lt (headerOf b0 b1 b2 b3 >>> 10)
    omega
  have hle := frameDur_bound v (layerOf ((headerOf b0 b1 b2 b3 >>> 17) &&& 3))
    ((headerOf b0 b1 b2 b3 >>> 10) &&& 3) hsr3
  rw [Nat.mod_eq_of_lt (lt_of_le_of_lt hle (by norm_num))]

/-- C1 (witness): one step on a concrete MPEG1 Layer3 header at 44100 Hz. -/
theorem C1_witness :
    ∃ (v : Version) (pos' : Nat),
      versionOf ((headerOf 255 251 144 0 >>> 19) &&& 3) = .ok v ∧
      scanFrom [255, 251, 144, 0] (1 + 1) 0 0 =
        scanFrom [255, 251, 144, 0] 1 pos'
          (0 + samplesPerFrameAt v.idx (layerOf ((headerOf 255 251 144 0 >>> 17) &&& 3)).idx *
            1000000000 / samplingRateAt v.idx ((headerOf 255 251 144 0 >>> 10) &&& 3)) :=
  @C1_frame_duration [255, 251, 144, 0] 0 0 1 255 251 144 0 (by decide) (by decide)
    (by decide) (by decide) (by decide) (by decide) (by decide) (by decide) (by decide)
    (by decide)

/-- C2 (confirmed): for every MPEG frame header that passes validation, the
scan seeks forward after the 4 header bytes by exactly
`samples_per_frame / 8 * bitrate / sampling_rate + padding - 4` bytes with
floor division, where `bitrate` is 1000 times the static bitrate-table
entry and `padding` is bit 9 of the header. -/
theorem C2_frame_length {bs : List Nat} {pos dur fuel : Nat} {b0 b1 b2 b3 : Nat}
    (hr : readExact bs pos 4 = some [b0, b1, b2, b3])
    (h1 : b1 < 256) (h2 : b2 < 256) (h3 : b3 < 256)
    (hsync : headerOf b0 b1 b2 b3 >>> 21 = 0x7FF)
    (hver : (headerOf b0 b1 b2 b3 >>> 19) &&& 3 ≠ 1)
    (hlay : (headerOf b0 b1 b2 b3 >>> 17) &&& 3 ≠ 0)
    (hbr0 : (headerOf b0 b1 b2 b3 >>> 12) &&& 15 ≠ 0)
    (hbr15 : (headerOf b0 b1 b2 b3 >>> 12) &&& 15 ≠ 15)
    (hsr : (headerOf b0 b1 b2 b3 >>> 10) &&& 3 ≠ 3) :
    ∃ (v : Version) (dur' : Nat),
      versionOf ((headerOf b0 b1 b2 b3 >>> 19) &&& 3) = .ok v ∧
      scanFrom bs (fuel + 1) pos dur =
        scanFrom bs fuel
          (pos + 4 +
            (samplesPerFrameAt v.idx (layerOf ((headerOf b0 b1 b2 b3 >>> 17) &&& 3)).idx / 8 *
              (1000 * bitRateAt v.idx (layerOf ((headerOf b0 b1 b2 b3 >>> 17) &&& 3)).idx
                ((headerOf b0 b1 b2 b3 >>> 12) &&& 15)) /
              samplingRateAt v.idx ((headerOf b0 b1 b2 b3 >>> 10) &&& 3) +
              (if (headerOf b0 b1 b2 b3 >>> 9) &&& 1 ≠ 0 then 1 else 0) - 4)) dur' := by
  obtain ⟨v, hv, hfr⟩ := frameResult_ok hver hlay hbr0 hbr15 hsr
  refine ⟨v,
    dur + samplesPerFrameAt v.idx (layerOf ((headerOf b0 b1 b2 b3 >>> 17) &&& 3)).idx *
      1000000000 / samplingRateAt v.idx ((headerOf b0 b1 b2 b3 >>> 10) &&& 3) % 2 ^ 32,
    hv, ?_⟩
  simp only [scanFrom_succ, scanStep_frame hr h1 h2 h3 hsync, hfr]
  have hbrlt : (headerOf b0 b1 b2 b3 >>> 12) &&& 15 < 15 := by
    have := land_fifteen_lt (headerOf b0 b1 b2 b3 >>> 12)
    omega
  have hsr3 : (headerOf b0 b1 b2 b3 >>> 10) &&& 3 < 3 := by
    have := land_three_lt (headerOf b0 b1 b2 b3 >>> 10)
    omega
  have hpd : (if (headerOf b0 b1 b2 b3 >>> 9) &&& 1 ≠ 0 then 1 else 0) < 2 := by
    split <;> decide
  obtain ⟨hge, hlt⟩ := frameLen_bound v (layerOf ((headerOf b0 b1 b2 b3 >>> 17) &&& 3))
    (layerOf_ne hlay) ((headerOf b0 b1 b2 b3 >>> 12) &&& 15) hbrlt hbr0
    ((headerOf b0 b1 b2 b3 >>> 10) &&& 3) hsr3
    (if (headerOf b0 b1 b2 b3 >>> 9) &&& 1 ≠ 0 then 1 else 0) hpd
  rw [wrap_sub hge hlt]

/-- C2 (witness): one step on a concrete MPEG1 Layer3 header, 128 kbps at
44100 Hz, no padding. -/
theorem C2_witness :
    ∃ (v : Version) (dur' : Nat),
      versionOf ((headerOf 255 251 144 0 >>> 19) &&& 3) = .ok v ∧
      scanFrom [255, 251, 144, 0] (1 + 1) 0 0 =
        scanFrom [255, 251, 144, 0] 1
          (0 + 4 +
            (samplesPerFrameAt v.idx (layerOf ((headerOf 255 251 144 0 >>> 17) &&& 3)).idx / 8 *
              (1000 * bitRateAt v.idx (layerOf ((headerOf 255 251 144 0 >>> 17) &&& 3)).idx
                ((headerOf 255 251 144 0 >>> 12) &&& 15)) /
              samplingRateAt v.idx ((headerOf 255 251 144 0 >>> 10) &&& 3) +
              (if (headerOf 255 251 144 0 >>> 9) &&& 1 ≠ 0 then 1 else 0) - 4)) dur' :=
  @C2_frame_length [255, 251, 144, 0] 0 0 1 255 251 144 0 (by decide) (by decide)
    (by decide) (by decide) (by decide) (by decide) (by decide) (by decide) (by decide)
    (by decide)

/-- C9 (confirmed): for every validated field combination, the
pre-subtraction frame-length value over the static tables is at least 4, so
the wrapping u32 subtraction of 4 never wraps and equals plain
subtraction. -/
theorem C9_no_underflow :
    ∀ (v : Version) (l : Layer), l ≠ .notDefined → ∀ eb < 15, eb ≠ 0 → ∀ sc < 3, ∀ pd < 2,
      4 ≤ samplesPerFrameAt v.idx l.idx / 8 * (1000 * bitRateAt v.idx l.idx eb) /
            samplingRateAt v.idx sc + pd ∧
      (samplesPerFrameAt v.idx l.idx / 8 * (1000 * bitRateAt v.idx l.idx eb) /
            samplingRateAt v.idx sc + pd + (2 ^ 32 - 4)) % 2 ^ 32 =
        samplesPerFrameAt v.idx l.idx / 8 * (1000 * bitRateAt v.idx l.idx eb) /
            samplingRateAt v.idx sc + pd - 4 := by
  decide

/-- C9 (witness): MPEG1 Layer3 at bitrate code 9, sampling-rate code 0, no
padding. -/
theorem C9_witness :
    4 ≤ samplesPerFrameAt Version.mpeg1.idx Layer.layer3.idx / 8 *
          (1000 * bitRateAt Version.mpeg1.idx Layer.layer3.idx 9) /
          samplingRateAt Version.mpeg1.idx 0 + 0 ∧
    (samplesPerFrameAt Version.mpeg1.idx Layer.layer3.idx / 8 *
          (1000 * bitRateAt Version.mpeg1.idx Layer.layer3.idx 9) /
          samplingRateAt Version.mpeg1.idx 0 + 0 + (2 ^ 32 - 4)) % 2 ^ 32 =
      samplesPerFrameAt Version.mpeg1.idx Layer.layer3.idx / 8 *
          (1000 * bitRateAt Version.mpeg1.idx Layer.layer3.idx 9) /
          samplingRateAt Version.mpeg1.idx 0 + 0 - 4 :=
  C9_no_underflow Version.mpeg1 Layer.layer3 (by decide) 9 (by decide) (by decide) 0
    (by decide) 0 (by decide)

/-- C10 (confirmed): for every validated version, layer and sampling-rate
code, the per-frame duration over the static tables is at most 144000000
nanoseconds, hence below `2 ^ 32`, so the `as u32` narrowing loses
nothing. -/
theorem C10_duration_fits :
    ∀ (v : Version) (l : Layer), l ≠ .notDefined → ∀ sc < 3,
      samplesPerFrameAt v.idx l.idx * 1000000000 / samplingRateAt v.idx sc ≤ 144000000 ∧
      samplesPerFrameAt v.idx l.idx * 1000000000 / samplingRateAt v.idx sc < 2 ^ 32 ∧
      samplesPerFrameAt v.idx l.idx * 1000000000 / samplingRateAt v.idx sc % 2 ^ 32 =
        samplesPerFrameAt v.idx l.idx * 1000000000 / samplingRateAt v.idx sc := by
  decide

/-- C10 (witness): MPEG1 Layer3 at sampling-rate code 0. -/
theorem C10_witness :
    samplesPerFrameAt Version.mpeg1.idx Layer.layer3.idx * 1000000000 /
        samplingRateAt Version.mpeg1.idx 0 ≤ 144000000 ∧
    samplesPerFrameAt Version.mpeg1.idx Layer.layer3.idx * 1000000000 /
        samplingRateAt Version.mpeg1.idx 0 < 2 ^ 32 ∧
    samplesPerFrameAt Version.mpeg1.idx Layer.layer3.idx * 1000000000 /
        samplingRateAt Version.mpeg1.idx 0 % 2 ^ 32 =
      samplesPerFrameAt Version.mpeg1.idx Layer.layer3.idx * 1000000000 /
        samplingRateAt Version.mpeg1.idx 0 :=
  C10_duration_fits Version.mpeg1 Layer.layer3 (by decide) 0 (by decide)

/-- C4 (counterexample): with size bytes `[0, 0, 0, 128]` the code computes
a tag size of 128 (the top bit of the last size byte is not masked) and
ends the 14-byte stream with duration 0 at cursor 138, while the synchsafe
decoding of the spec gives size 0; resuming at the position the claim
prescribes (byte 10) would instead hit the trailing garbage and fail. -/
theorem C4_counterexample :
    runScan [73, 68, 51, 3, 0, 0, 0, 0, 0, 128, 1, 1, 1, 1] = some (.ok 0, 138) ∧
    synchsafeSizeSpec 0 0 0 128 = 0 ∧
    scanFrom [73, 68, 51, 3, 0, 0, 0, 0, 0, 128, 1, 1, 1, 1] 14
        (10 + synchsafeSizeSpec 0 0 0 128 + 0) 0 =
      some (.error (.unexpectedFrame 16843009), 14) := by
  refine ⟨by decide, by decide, by decide⟩

/-- C4 (amended): for every ID3v2 tag block the scanner reads the 6
remaining header bytes, seeks forward by the assembled size word plus 10
extra bytes exactly when flag bit 0x10 is set, and adds nothing to the
duration; the size word agrees with the spec's synchsafe decoding (7-bit
fields, top bit ignored) whenever all four size bytes have their top bit
clear, but the code does not mask the top bit, so size bytes with the most
significant bit set leak into higher positions. -/
theorem C4_id3v2_skip_amended {bs : List Nat} {pos dur fuel : Nat}
    {x s0 s1 s2 s3 s4 s5 : Nat}
    (hr : readExact bs pos 4 = some [73, 68, 51, x])
    (hr6 : readExact bs (pos + 4) 6 = some [s0, s1, s2, s3, s4, s5]) :
    scanFrom bs (fuel + 1) pos dur =
      scanFrom bs fuel (pos + 10 + id3v2SkipAmount [s0, s1, s2, s3, s4, s5]) dur ∧
    (s2 < 128 → s3 < 128 → s4 < 128 → s5 < 128 →
      id3v2SkipAmount [s0, s1, s2, s3, s4, s5] =
        synchsafeSizeSpec s2 s3 s4 s5 + (if s1 &&& 16 ≠ 0 then 10 else 0)) := by
  constructor
  · rw [scanFrom_succ, scanStep_of_read hr]
    rw [if_neg (by decide : ¬((73:Nat) = 84 ∧ (68:Nat) = 65 ∧ (51:Nat) = 71))]
    rw [if_pos (show (73:Nat) = 73 ∧ (68:Nat) = 68 ∧ (51:Nat) = 51 by decide)]
    rw [hr6]
  · intro h2 h3 h4 h5
    simp only [id3v2SkipAmount, List.getD_cons_zero, List.getD_cons_succ]
    have e1 : s5 ||| s4 <<< 7 = s4 * 2 ^ 7 + s5 := by
      rw [Nat.lor_comm]
      exact lor_eq_add_of_lt s4 7 (by norm_num [h5])
    have e2 : s4 * 2 ^ 7 + s5 ||| s3 <<< 14 = s3 * 2 ^ 14 + (s4 * 2 ^ 7 + s5) := by
      rw [Nat.lor_comm]
      refine lor_eq_add_of_lt s3 14 ?_
      norm_num
      omega
    have e3 : s3 * 2 ^ 14 + (s4 * 2 ^ 7 + s5) ||| s2 <<< 21 =
        s2 * 2 ^ 21 + (s3 * 2 ^ 14 + (s4 * 2 ^ 7 + s5)) := by
      rw [Nat.lor_comm]
      refine lor_eq_add_of_lt s2 21 ?_
      norm_num
      omega
    rw [e1, e2, e3]
    simp only [synchsafeSizeSpec, Nat.mod_eq_of_lt h2, Nat.mod_eq_of_lt h3,
      Nat.mod_eq_of_lt h4, Nat.mod_eq_of_lt h5]
    norm_num
    omega

/-- C4 (witness): a concrete ID3v2 tag with synchsafe size bytes
`[0, 0, 1, 2]` (size 130) and no footer flag. -/
theorem C4_witness :
    (scanFrom [73, 68, 51, 3, 0, 0, 0, 0, 1, 2] (0 + 1) 0 0 =
      scanFrom [73, 68, 51, 3, 0, 0, 0, 0, 1, 2] 0
        (0 + 10 + id3v2SkipAmount [0, 0, 0, 0, 1, 2]) 0) ∧
    ((0:Nat) < 128 → (0:Nat) < 128 → (1:Nat) < 128 → (2:Nat) < 128 →
      id3v2SkipAmount [0, 0, 0, 0, 1, 2] =
        synchsafeSizeSpec 0 0 1 2 + (if (0:Nat) &&& 16 ≠ 0 then 10 else 0)) :=
  @C4_id3v2_skip_amended [73, 68, 51, 3, 0, 0, 0, 0, 1, 2] 0 0 0 3 0 0 0 0 1 2
    (by decide) (by decide)

set_option maxRecDepth 8000 in
/-- C5 (counterexample): appending an ID3v1 tag block to the 2-byte stream
`[0, 0]` changes the result from success with duration 0 to an
UnexpectedFrame error, because the trailing bytes shift the 4-byte windows:
the presence of the trailing tag does alter the outcome. -/
theorem C5_counterexample :
    from_file [0, 0] = some (.ok 0) ∧
    from_file ([0, 0] ++ 84 :: 65 :: 71 :: List.replicate 125 0) =
      some (.error (.unexpectedFrame 21569)) := by
  refine ⟨by decide, by decide⟩

/-- C5 (amended): prepending an ID3v1 tag block (128 bytes, first three
bytes "TAG") to any stream never changes the scan result; appending one at
the end preserves a successful duration provided the original scan consumed
its stream exactly to the final byte, the scanner in that case recognizing
the signature, skipping the 124 remaining tag bytes and adding nothing to
the duration. -/
theorem C5_id3v1_tag_amended :
    (∀ (bs rest : List Nat) (x : Nat), rest.length = 124 →
      from_file ((84 :: 65 :: 71 :: x :: rest) ++ bs) = from_file bs) ∧
    (∀ (bs rest : List Nat) (x d : Nat), rest.length = 124 →
      runScan bs = some (.ok d, bs.length) →
      from_file (bs ++ 84 :: 65 :: 71 :: x :: rest) = some (.ok d)) := by
  constructor
  · intro bs rest x hrest
    unfold from_file runScan
    have htlen : (84 :: 65 :: 71 :: x :: rest).length = 128 := by
      simp only [List.length_cons, hrest]
    have hlen : ((84 :: 65 :: 71 :: x :: rest) ++ bs).length + 1 = (bs.length + 128) + 1 := by
      rw [List.length_append, htlen]
      omega
    rw [hlen]
    have hr : readExact ((84 :: 65 :: 71 :: x :: rest) ++ bs) 0 4 = some [84, 65, 71, x] := by
      unfold readExact
      rw [if_pos (by rw [List.length_append, htlen]; omega)]
      rfl
    have hstep : scanStep ((84 :: 65 :: 71 :: x :: rest) ++ bs) 0 0 =
        .next ((84 :: 65 :: 71 :: x :: rest).length + 0) 0 := by
      rw [scanStep_of_read hr]
      rw [if_pos (show (84:Nat) = 84 ∧ (65:Nat) = 65 ∧ (71:Nat) = 71 by decide)]
      rw [htlen]
    rw [scanFrom_succ, hstep]
    show (scanFrom ((84 :: 65 :: 71 :: x :: rest) ++ bs) (bs.length + 128)
        ((84 :: 65 :: 71 :: x :: rest).length + 0) 0).map Prod.fst =
      (scanFrom bs (bs.length + 1) 0 0).map Prod.fst
    rw [scanFrom_shift]
    obtain ⟨r, hr0⟩ := Option.isSome_iff_exists.mp (runScan_isSome bs)
    have hr0' : scanFrom bs (bs.length + 1) 0 0 = some r := hr0
    have hr1 : scanFrom bs (bs.length + 128) 0 0 = some r := scanFrom_mono (by omega) hr0'
    rw [hr0', hr1]
    rfl
  · intro bs rest x d hrest hrun
    unfold runScan at hrun
    unfold from_file runScan
    have happ := scanFrom_append_tag x hrest (bs.length + 1) 0 0 d hrun
    have hlen : (bs ++ 84 :: 65 :: 71 :: x :: rest).length + 1 = bs.length + 129 := by
      rw [List.length_append]
      simp only [List.length_cons, hrest]
    rw [hlen]
    have hmono := scanFrom_mono (show bs.length + 1 + 2 ≤ bs.length + 129 by omega) happ
    rw [hmono]
    rfl

/-- C5 (witness): the prepend case on a concrete one-frame stream, and the
append case on the empty stream (which the scan consumes exactly). -/
theorem C5_witness :
    from_file ((84 :: 65 :: 71 :: 0 :: List.replicate 124 0) ++ [255, 251, 144, 0]) =
      from_file [255, 251, 144, 0] ∧
    from_file ([] ++ 84 :: 65 :: 71 :: 0 :: List.replicate 124 0) = some (.ok 0) :=
  ⟨C5_id3v1_tag_amended.1 [255, 251, 144, 0] (List.replicate 124 0) 0 (by simp),
   C5_id3v1_tag_amended.2 [] (List.replicate 124 0) 0 0 (by simp) (by decide)⟩
